import Mathlib

/-!
# Verification of the collectd-rust-plugin time codec and graphite writer

Shallow embedding of `src/api/cdtime.rs` and `examples/write_graphite.rs`.
Rust `u64` values are embedded as `Nat`; an operation that can exceed
`2 ^ 64` on in-range inputs carries an explicit `% 2 ^ 64` wrap, mirroring
release-mode wrapping semantics.
-/

namespace Collectd

/-- `nanos_to_collectd` from `src/api/cdtime.rs`:
`((nanos / 1_000_000_000) << 30) | ((((nanos % 1_000_000_000) << 30) + 500_000_000) / 1_000_000_000)`.
For `nanos < 2 ^ 64` the fractional side stays below `2 ^ 60 + 2 ^ 29`, so only
the seconds shift can wrap and carries the explicit `% 2 ^ 64`. -/
def nanos_to_collectd (nanos : Nat) : Nat :=
  (((nanos / 1000000000) <<< 30) % 2 ^ 64) |||
    ((((nanos % 1000000000) <<< 30) + 500000000) / 1000000000)

/-- The non-wrapping (mathematical) value of the same expression, used to state
exactness of the encoding. -/
def nanos_to_collectd_exact (nanos : Nat) : Nat :=
  ((nanos / 1000000000) <<< 30) |||
    ((((nanos % 1000000000) <<< 30) + 500000000) / 1000000000)

/-- `collectd_to_nanos` from `src/api/cdtime.rs`:
`((cd >> 30) * 1_000_000_000) + (((cd & 0x3fff_ffff) * 1_000_000_000 + (1 << 29)) >> 30)`.
For `cd < 2 ^ 64` every intermediate value stays below `2 ^ 64`
(proved in `collectd_to_nanos_overflow_free`), so no wrap is needed. -/
def collectd_to_nanos (cd : Nat) : Nat :=
  ((cd >>> 30) * 1000000000) +
    (((cd &&& 0x3fffffff) * 1000000000 + (1 <<< 29)) >>> 30)

theorem mask_eq : (0x3fffffff : Nat) = 2 ^ 30 - 1 := by norm_num

/-- The fractional half of the encoding is always strictly below `2 ^ 30`. -/
theorem frac_lt (n : Nat) :
    (((n % 1000000000) <<< 30) + 500000000) / 1000000000 < 2 ^ 30 := by
  have h : n % 1000000000 < 1000000000 := Nat.mod_lt _ (by norm_num)
  rw [Nat.shiftLeft_eq]
  omega

/-- Arithmetic normal form of the encoder on the representable range. -/
theorem nanos_to_collectd_eq (n : Nat) (h : n < 2 ^ 34 * 1000000000) :
    nanos_to_collectd n =
      2 ^ 30 * (n / 1000000000) +
        ((n % 1000000000) * 2 ^ 30 + 500000000) / 1000000000 := by
  have hf : ((n % 1000000000) * 2 ^ 30 + 500000000) / 1000000000 < 2 ^ 30 := by
    have := frac_lt n
    rwa [Nat.shiftLeft_eq] at this
  unfold nanos_to_collectd
  rw [Nat.shiftLeft_eq, Nat.shiftLeft_eq]
  have hs : n / 1000000000 < 2 ^ 34 := by omega
  have hbound : n / 1000000000 * 2 ^ 30 < 2 ^ 64 := by
    calc n / 1000000000 * 2 ^ 30 < 2 ^ 34 * 2 ^ 30 := by
          exact Nat.mul_lt_mul_of_lt_of_le hs (le_refl _) (by norm_num)
      _ = 2 ^ 64 := by norm_num
  rw [Nat.mod_eq_of_lt hbound, Nat.mul_comm (n / 1000000000) (2 ^ 30),
    ← Nat.mul_add_lt_is_or hf]

/-- Arithmetic normal form of the decoder. -/
theorem collectd_to_nanos_eq (x : Nat) :
    collectd_to_nanos x =
      x / 2 ^ 30 * 1000000000 + (x % 2 ^ 30 * 1000000000 + 2 ^ 29) / 2 ^ 30 := by
  unfold collectd_to_nanos
  rw [Nat.shiftRight_eq_div_pow, Nat.shiftRight_eq_div_pow, Nat.shiftLeft_eq,
    mask_eq, Nat.and_pow_two_sub_one_eq_mod]
  norm_num

/-- The decoder inverts the encoder exactly on the representable range. -/
theorem collectd_to_nanos_nanos_to_collectd (n : Nat)
    (h : n < 2 ^ 34 * 1000000000) :
    collectd_to_nanos (nanos_to_collectd n) = n := by
  rw [nanos_to_collectd_eq n h, collectd_to_nanos_eq]
  have hf : ((n % 1000000000) * 2 ^ 30 + 500000000) / 1000000000 < 2 ^ 30 := by
    have := frac_lt n
    rwa [Nat.shiftLeft_eq] at this
  have hdiv :
      (2 ^ 30 * (n / 1000000000) +
          ((n % 1000000000) * 2 ^ 30 + 500000000) / 1000000000) / 2 ^ 30 =
        n / 1000000000 := by
    rw [Nat.mul_add_div (by norm_num)]
    omega
  have hmod :
      (2 ^ 30 * (n / 1000000000) +
          ((n % 1000000000) * 2 ^ 30 + 500000000) / 1000000000) % 2 ^ 30 =
        ((n % 1000000000) * 2 ^ 30 + 500000000) / 1000000000 := by
    rw [Nat.mul_add_mod]
    exact Nat.mod_eq_of_lt hf
  rw [hdiv, hmod]
  have hr : n % 1000000000 < 1000000000 := Nat.mod_lt _ (by norm_num)
  omega

/-- `impl From<Duration> for CdTime` from `src/api/cdtime.rs`:
`CdTime(d.num_nanoseconds().unwrap() as u64)`. The duration is embedded by its
signed nanosecond count `ns : Int`; chrono's `num_nanoseconds` returns `Some`
exactly when that count fits in `i64` (`.unwrap()` panics otherwise, embedded
as `none`), and `as u64` reinterprets the two's-complement bits, i.e. reduces
the signed value modulo `2 ^ 64`. -/
def duration_to_cdtime (ns : Int) : Option Nat :=
  if -2 ^ 63 ≤ ns ∧ ns < 2 ^ 63 then some (ns % 2 ^ 64).toNat else none

/-- C1: for every u64 nanosecond value whose whole-seconds component fits in
34 bits, decoding the encoding differs from the input by at most 1 nanosecond
(the round-trip is in fact exact). -/
theorem roundtrip_within_one_nano (n : Nat) (h : n < 2 ^ 34 * 1000000000) :
    Nat.dist (collectd_to_nanos (nanos_to_collectd n)) n ≤ 1 := by
  rw [collectd_to_nanos_nanos_to_collectd n h, Nat.dist_self]
  exact Nat.zero_le 1

theorem roundtrip_within_one_nano_witness :
    1439981652801860766 < 2 ^ 34 * 1000000000 ∧
      Nat.dist (collectd_to_nanos (nanos_to_collectd 1439981652801860766))
        1439981652801860766 ≤ 1 :=
  ⟨by norm_num, roundtrip_within_one_nano 1439981652801860766 (by norm_num)⟩

/-- C5 counterexample: the encoder is not monotone over all of u64 — at the
2^34-second boundary the seconds shift wraps modulo 2^64, so the successor of
the largest representable nanosecond value encodes below it. -/
theorem nanos_to_collectd_not_monotone :
    17179869183999999999 ≤ 17179869184000000000 ∧
      ¬ nanos_to_collectd 17179869183999999999 ≤
          nanos_to_collectd 17179869184000000000 := by
  constructor
  · norm_num
  · decide

/-- C5 amended: the encoder is monotone on the representable range: for all
`a ≤ b` with the whole-seconds component of `b` below 2^34,
`nanos_to_collectd a ≤ nanos_to_collectd b`. -/
theorem nanos_to_collectd_monotone (a b : Nat) (hab : a ≤ b)
    (hb : b < 2 ^ 34 * 1000000000) :
    nanos_to_collectd a ≤ nanos_to_collectd b := by
  have ha : a < 2 ^ 34 * 1000000000 := lt_of_le_of_lt hab hb
  rw [nanos_to_collectd_eq a ha, nanos_to_collectd_eq b hb]
  omega

theorem nanos_to_collectd_monotone_witness :
    (1000000000 : Nat) ≤ 1439981652801860766 ∧
      1439981652801860766 < 2 ^ 34 * 1000000000 ∧
      nanos_to_collectd 1000000000 ≤ nanos_to_collectd 1439981652801860766 :=
  ⟨by norm_num, by norm_num,
    nanos_to_collectd_monotone 1000000000 1439981652801860766 (by norm_num)
      (by norm_num)⟩

/-- C6: the codec matches the literal reference vectors taken from collectd's
`utils_time_test.c`. -/
theorem cdtime_reference_vectors :
    nanos_to_collectd 1439981652801860766 = 1546168526406004689 ∧
      collectd_to_nanos 1546168526406004689 = 1439981652801860766 := by
  constructor
  · decide
  · decide

/-- C7: decode-after-encode is idempotent after one application on the
representable range — the rounding error never accumulates across repeated
round-trips of the same value. -/
theorem roundtrip_idempotent (n : Nat) (h : n < 2 ^ 34 * 1000000000) :
    collectd_to_nanos (nanos_to_collectd
        (collectd_to_nanos (nanos_to_collectd n))) =
      collectd_to_nanos (nanos_to_collectd n) := by
  rw [collectd_to_nanos_nanos_to_collectd n h]
  exact collectd_to_nanos_nanos_to_collectd n h

theorem roundtrip_idempotent_witness :
    1439981652801860766 < 2 ^ 34 * 1000000000 ∧
      collectd_to_nanos (nanos_to_collectd
          (collectd_to_nanos (nanos_to_collectd 1439981652801860766))) =
        collectd_to_nanos (nanos_to_collectd 1439981652801860766) :=
  ⟨by norm_num, roundtrip_idempotent 1439981652801860766 (by norm_num)⟩

/-- C9: when the whole-seconds component fits in 34 bits every intermediate
value of the encoder stays strictly below 2^64 and the encoding equals its
non-wrapping mathematical value; when the whole-seconds component reaches
2^34 the seconds shift overflows and the result is the mathematical value
reduced modulo 2^64. -/
theorem nanos_to_collectd_overflow_behavior :
    (∀ n : Nat, n < 2 ^ 34 * 1000000000 →
        (n / 1000000000) <<< 30 < 2 ^ 64 ∧
          (n % 1000000000) <<< 30 < 2 ^ 64 ∧
          (n % 1000000000) <<< 30 + 500000000 < 2 ^ 64 ∧
          nanos_to_collectd n = nanos_to_collectd_exact n) ∧
      ∀ n : Nat, n < 2 ^ 64 → 2 ^ 34 ≤ n / 1000000000 →
        2 ^ 64 ≤ (n / 1000000000) <<< 30 ∧
          nanos_to_collectd n = nanos_to_collectd_exact n % 2 ^ 64 := by
  constructor
  · intro n h
    have hf := frac_lt n
    rw [Nat.shiftLeft_eq] at hf
    refine ⟨?_, ?_, ?_, ?_⟩
    · rw [Nat.shiftLeft_eq]
      omega
    · rw [Nat.shiftLeft_eq]
      omega
    · rw [Nat.shiftLeft_eq]
      omega
    · unfold nanos_to_collectd nanos_to_collectd_exact
      rw [Nat.shiftLeft_eq, Nat.mod_eq_of_lt (by omega)]
  · intro n _ h
    have hf := frac_lt n
    rw [Nat.shiftLeft_eq] at hf
    constructor
    · rw [Nat.shiftLeft_eq]
      omega
    · unfold nanos_to_collectd nanos_to_collectd_exact
      rw [Nat.shiftLeft_eq, Nat.shiftLeft_eq]
      have h1 : n / 1000000000 * 2 ^ 30 % 2 ^ 64 =
          n / 1000000000 % 2 ^ 34 * 2 ^ 30 := by
        rw [show (2 : Nat) ^ 64 = 2 ^ 34 * 2 ^ 30 by norm_num,
          Nat.mul_mod_mul_right]
      rw [h1, Nat.mul_comm (n / 1000000000 % 2 ^ 34) (2 ^ 30),
        ← Nat.mul_add_lt_is_or hf,
        Nat.mul_comm (n / 1000000000) (2 ^ 30), ← Nat.mul_add_lt_is_or hf]
      omega

theorem nanos_to_collectd_overflow_behavior_witness :
    (1439981652801860766 < 2 ^ 34 * 1000000000 ∧
        nanos_to_collectd 1439981652801860766 =
          nanos_to_collectd_exact 1439981652801860766) ∧
      (18446744073709551615 < 2 ^ 64 ∧
          2 ^ 34 ≤ 18446744073709551615 / 1000000000 ∧
          nanos_to_collectd 18446744073709551615 =
            nanos_to_collectd_exact 18446744073709551615 % 2 ^ 64) :=
  ⟨⟨by norm_num,
      (nanos_to_collectd_overflow_behavior.1 _ (by norm_num)).2.2.2⟩,
    ⟨by norm_num, by decide,
      (nanos_to_collectd_overflow_behavior.2 _ (by norm_num) (by decide)).2⟩⟩

/-- C10: the decoder is overflow-free on all of u64, its rounded fractional
term is at most 999999999 (so it never carries into whole seconds, and the
sub-second nanosecond value later handed to the calendar conversion is always
below 10^9), the whole-seconds part of the result is exactly `t >> 30` and
the sub-second part is exactly the fractional term. -/
theorem collectd_to_nanos_no_carry (t : Nat) (h : t < 2 ^ 64) :
    t >>> 30 * 1000000000 < 2 ^ 64 ∧
      (t &&& 0x3fffffff) * 1000000000 + 1 <<< 29 < 2 ^ 64 ∧
      collectd_to_nanos t < 2 ^ 64 ∧
      ((t &&& 0x3fffffff) * 1000000000 + 1 <<< 29) >>> 30 ≤ 999999999 ∧
      collectd_to_nanos t / 1000000000 = t >>> 30 ∧
      collectd_to_nanos t % 1000000000 =
        ((t &&& 0x3fffffff) * 1000000000 + 1 <<< 29) >>> 30 := by
  rw [collectd_to_nanos_eq, mask_eq, Nat.and_pow_two_sub_one_eq_mod,
    Nat.shiftRight_eq_div_pow, Nat.shiftRight_eq_div_pow, Nat.one_shiftLeft]
  have h30 : t % 2 ^ 30 < 2 ^ 30 := Nat.mod_lt _ (by norm_num)
  refine ⟨by omega, by omega, by omega, by omega, by omega, by omega⟩

theorem collectd_to_nanos_no_carry_witness :
    (1546168526406004689 : Nat) < 2 ^ 64 ∧
      collectd_to_nanos 1546168526406004689 / 1000000000 =
        1546168526406004689 >>> 30 ∧
      collectd_to_nanos 1546168526406004689 % 1000000000 =
        ((1546168526406004689 &&& 0x3fffffff) * 1000000000 + 1 <<< 29) >>> 30 :=
  ⟨by norm_num,
    (collectd_to_nanos_no_carry 1546168526406004689 (by norm_num)).2.2.2.2.1,
    (collectd_to_nanos_no_carry 1546168526406004689 (by norm_num)).2.2.2.2.2⟩

/-- C4 counterexample: a negative one-nanosecond duration neither fails nor
saturates — the conversion silently wraps it to the valid-looking encoding
`2 ^ 64 - 1`. -/
theorem duration_to_cdtime_neg_one_wraps :
    ¬(duration_to_cdtime (-1) = none ∨ duration_to_cdtime (-1) = some 0) ∧
      duration_to_cdtime (-1) = some 18446744073709551615 := by
  constructor
  · decide
  · decide

/-- C4 amended: for every negative duration whose nanosecond count fits in
i64, the conversion neither fails nor saturates: it silently wraps
two's-complement style, producing the valid-looking encoding `ns + 2 ^ 64`. -/
theorem duration_to_cdtime_neg_wraps (ns : Int) (h1 : -2 ^ 63 ≤ ns)
    (h2 : ns < 0) :
    duration_to_cdtime ns = some (ns + 2 ^ 64).toNat := by
  unfold duration_to_cdtime
  rw [if_pos ⟨h1, by omega⟩]
  congr 1
  omega

theorem duration_to_cdtime_neg_wraps_witness :
    -2 ^ 63 ≤ (-1 : Int) ∧ (-1 : Int) < 0 ∧
      duration_to_cdtime (-1) = some ((-1 : Int) + 2 ^ 64).toNat :=
  ⟨by norm_num, by norm_num,
    duration_to_cdtime_neg_wraps (-1) (by norm_num) (by norm_num)⟩

/-! ## Graphite writer, from `examples/write_graphite.rs` -/

/-- Rust `char::is_whitespace`: the Unicode `White_Space` property, embedded
by its character list. -/
def rust_is_whitespace (c : Char) : Bool :=
  c.toNat == 0x09 || c.toNat == 0x0A || c.toNat == 0x0B || c.toNat == 0x0C ||
    c.toNat == 0x0D || c.toNat == 0x20 || c.toNat == 0x85 || c.toNat == 0xA0 ||
    c.toNat == 0x1680 ||
    (decide (0x2000 ≤ c.toNat) && decide (c.toNat ≤ 0x200A)) ||
    c.toNat == 0x2028 || c.toNat == 0x2029 || c.toNat == 0x202F ||
    c.toNat == 0x205F || c.toNat == 0x3000

/-- Rust `char::is_control`: Unicode general category `Cc`,
i.e. U+0000–U+001F and U+007F–U+009F. -/
def rust_is_control (c : Char) : Bool :=
  decide (c.toNat ≤ 0x1F) || (decide (0x7F ≤ c.toNat) && decide (c.toNat ≤ 0x9F))

/-- The character predicate used by `graphitize`:
`x == '.' || x.is_whitespace() || x.is_control()`. -/
def graphite_special (c : Char) : Bool :=
  c == '.' || rust_is_whitespace c || rust_is_control c

/-- `graphitize` from `examples/write_graphite.rs`: if no character needs
modifying return the borrowed input unchanged, otherwise map every special
character to `'-'`. -/
def graphitize (s : String) : String :=
  if s.data.any graphite_special then
    ⟨s.data.map fun c => if graphite_special c then '-' else c⟩
  else s

/-- Modelled from the spec: one value of a SampleBatch (§3), carrying its name
and, per §4.3, the host-produced decimal rendering of the numeric value (the
`Value` enum and its formatting live in the library crate outside `src/`). -/
structure ValueReport where
  name : String
  value : String
deriving DecidableEq

/-- Modelled from the spec: a SampleBatch (§3) as consumed by `write_values` —
host, plugin, optional plugin instance, type, optional type instance, the
timestamp's whole-second count (`list.time` is a calendar time produced by
library code outside `src/`; `write_values` consumes only its `timestamp()`
seconds), and the ordered list of named values. -/
structure ValueList where
  host : String
  plugin : String
  plugin_instance : Option String
  type_ : String
  type_instance : Option String
  time_secs : Int
  values : List ValueReport
deriving DecidableEq

/-- Observable state of one Sink Writer: every line whose write was attempted,
the lines actually written, and the number of logged write errors. The
underlying byte stream (`W: Write + Send`) is embedded as an outcome oracle
`outcome : String → Bool` deciding whether a given line's write succeeds. -/
structure SinkState where
  attempted : List String
  written : List String
  errors : Nat
deriving DecidableEq

/-- `GraphitePlugin::write_value` from `examples/write_graphite.rs`: appends
`' '`, the value text, `' '`, the timestamp text and `'\n'` to the line, then
attempts one write on the locked writer; a failed write is logged (counted in
`errors`) and not propagated — the function returns normally either way. -/
def write_value (outcome : String → Bool) (st : SinkState) (line : String)
    (val : String) (dt : String) : SinkState :=
  let l := line ++ " " ++ val ++ " " ++ dt ++ "\n"
  { attempted := st.attempted ++ [l]
    written := if outcome l then st.written ++ [l] else st.written
    errors := if outcome l then st.errors else st.errors + 1 }

/-- The identifier built by the successive `push_str` calls at the start of
`GraphitePlugin::write_values` (`pre` is the node's optional prefix
configuration). -/
def record_base (pre : Option String) (list : ValueList) : String :=
  let line0 := match pre with
    | some p => p ++ "."
    | none => ""
  let line1 := line0 ++ graphitize list.host ++ "." ++ graphitize list.plugin
  let line2 := match list.plugin_instance with
    | some inst => line1 ++ "-" ++ graphitize inst
    | none => line1
  let line3 := line2 ++ "." ++ graphitize list.type_
  match list.type_instance with
  | some ti => line3 ++ "-" ++ graphitize ti
  | none => line3

/-- `GraphitePlugin::write_values` from `examples/write_graphite.rs`. The
`&self` mutation through the mutex-held writer is embedded as explicit state
passing, and the `Result<(), Box<dyn Error>>` return as `Except String`. -/
def write_values (outcome : String → Bool) (pre : Option String)
    (st : SinkState) (list : ValueList) : Except String SinkState :=
  let line := record_base pre list
  let dt := toString list.time_secs
  if h : list.values.length = 1 then
    Except.ok (write_value outcome st line
      (list.values.get ⟨0, by omega⟩).value dt)
  else
    Except.ok (list.values.foldl
      (fun s v => write_value outcome s (line ++ "." ++ graphitize v.name)
        v.value dt) st)

/-- Modelled from the spec (§4.3 Record Builder): identifier composition order
`[prefix "."] sanitize(host) "." sanitize(plugin)
["-" sanitize(plugin_instance)] "." sanitize(type)
["-" sanitize(type_instance)]`. -/
def spec_identifier (pre : Option String) (vl : ValueList) : String :=
  (match pre with
    | some p => p ++ "."
    | none => "") ++
    graphitize vl.host ++ "." ++ graphitize vl.plugin ++
    (match vl.plugin_instance with
      | some inst => "-" ++ graphitize inst
      | none => "") ++
    "." ++ graphitize vl.type_ ++
    (match vl.type_instance with
      | some ti => "-" ++ graphitize ti
      | none => "")

/-- Modelled from the spec (§4.3): per-value record line
`<identifier> " " <value> " " <secs> "\n"`. -/
def spec_record_line (ident val dt : String) : String :=
  ident ++ " " ++ val ++ " " ++ dt ++ "\n"

/-- The incrementally built identifier agrees with the spec's composition
order. -/
theorem record_base_eq_spec_identifier (pre : Option String) (vl : ValueList) :
    record_base pre vl = spec_identifier pre vl := by
  obtain ⟨h, p, pinst, t, tinst, secs, vs⟩ := vl
  apply String.ext
  rcases pre with _ | pr <;> rcases pinst with _ | pi <;>
    rcases tinst with _ | ti <;>
      simp [record_base, spec_identifier]

/-- Attempted lines of a fold of `write_value` over a value list. -/
theorem foldl_write_value_attempted (outcome : String → Bool) (dt : String)
    (mk : ValueReport → String) (vs : List ValueReport) :
    ∀ st : SinkState,
      (vs.foldl (fun s v => write_value outcome s (mk v) v.value dt)
          st).attempted =
        st.attempted ++ vs.map fun v => spec_record_line (mk v) v.value dt := by
  induction vs with
  | nil =>
      intro st
      simp
  | cons v vs ih =>
      intro st
      simp only [List.foldl_cons, List.map_cons]
      rw [ih]
      simp [write_value, spec_record_line]

/-- Characterization of the lines `write_values` attempts to deliver. -/
theorem write_values_attempted (outcome : String → Bool) (pre : Option String)
    (st : SinkState) (vl : ValueList) :
    ∃ st', write_values outcome pre st vl = Except.ok st' ∧
      st'.attempted = st.attempted ++
        (if vl.values.length = 1 then
          vl.values.map fun v =>
            spec_record_line (spec_identifier pre vl) v.value
              (toString vl.time_secs)
        else
          vl.values.map fun v =>
            spec_record_line (spec_identifier pre vl ++ "." ++ graphitize v.name)
              v.value (toString vl.time_secs)) := by
  obtain ⟨host, plugin, pinst, ty, tinst, secs, vals⟩ := vl
  by_cases h : vals.length = 1
  · obtain ⟨v, rfl⟩ := List.length_eq_one.mp h
    refine ⟨_, rfl, ?_⟩
    rw [if_pos h]
    simp [write_values, write_value, spec_record_line,
      record_base_eq_spec_identifier]
  · refine ⟨vals.foldl
      (fun s v => write_value outcome s
        (record_base pre ⟨host, plugin, pinst, ty, tinst, secs, vals⟩ ++ "." ++
          graphitize v.name) v.value
        (toString (⟨host, plugin, pinst, ty, tinst, secs, vals⟩ :
            ValueList).time_secs)) st, ?_, ?_⟩
    · simp only [write_values]
      rw [dif_neg h]
    · rw [foldl_write_value_attempted, if_neg h]
      simp only [record_base_eq_spec_identifier]

/-- C3: `graphitize` replaces exactly the characters that are `'.'`,
whitespace, or control characters with `'-'` and leaves every other character
unchanged; when no character needs replacement the returned content is
identical to the input; and it matches the four reference examples. -/
theorem graphitize_spec :
    (∀ s : String,
        (graphitize s).data =
          s.data.map fun c => if graphite_special c then '-' else c) ∧
      (∀ s : String, s.data.any graphite_special = false → graphitize s = s) ∧
      graphitize "hello" = "hello" ∧
      graphitize "hello.maty" = "hello-maty" ∧
      graphitize "foo@bar.com" = "foo@bar-com" ∧
      graphitize "  test \n " = "--test---" := by
  refine ⟨?_, ?_, by decide, by decide, by decide, by decide⟩
  · intro s
    unfold graphitize
    by_cases h : s.data.any graphite_special
    · rw [if_pos h]
    · rw [if_neg h]
      have h' : ∀ c ∈ s.data, graphite_special c = false := by
        simpa using h
      have hm : (s.data.map fun c => if graphite_special c then '-' else c) =
          s.data.map fun c => c :=
        List.map_congr_left fun a ha => by rw [h' a ha]; simp
      rw [hm, List.map_id']
  · intro s h
    unfold graphitize
    rw [if_neg (by simp [h])]

theorem graphitize_spec_witness :
    ("ab".data.any graphite_special = false) ∧ graphitize "ab" = "ab" :=
  ⟨by decide, graphitize_spec.2.1 "ab" (by decide)⟩

/-- C2: `write_values` produces exactly one record line per value, with the
identifier composed in order from the optional prefix, sanitized host,
plugin (joined to a sanitized optional plugin instance by `'-'`), and type
(joined to a sanitized optional type instance by `'-'`); a single-value batch
omits the per-value name suffix even when the value carries a name, while a
batch with more than one value suffixes each line with `'.'` and the
sanitized value name. In particular a single-value batch with host `h`,
plugin `p`, type `t`, no instances and one unnamed value `v` yields exactly
`"<prefix.>h.p.t v <secs>\n"`, and a two-value batch with names `a`, `b`
yields two lines suffixed `.a` and `.b`. -/
theorem write_values_record_lines :
    (∀ (outcome : String → Bool) (pre : Option String) (st : SinkState)
        (vl : ValueList),
        ∃ st', write_values outcome pre st vl = Except.ok st' ∧
          st'.attempted = st.attempted ++
            (if vl.values.length = 1 then
              vl.values.map fun v =>
                spec_record_line (spec_identifier pre vl) v.value
                  (toString vl.time_secs)
            else
              vl.values.map fun v =>
                spec_record_line
                  (spec_identifier pre vl ++ "." ++ graphitize v.name)
                  v.value (toString vl.time_secs))) ∧
      (∃ st', write_values (fun _ => true) (some "pre") ⟨[], [], 0⟩
          ⟨"h", "p", none, "t", none, 42, [⟨"ignored", "v"⟩]⟩ =
            Except.ok st' ∧
          st'.attempted = ["pre.h.p.t v 42\n"]) ∧
      ∃ st', write_values (fun _ => true) none ⟨[], [], 0⟩
          ⟨"h", "p", none, "t", none, 42, [⟨"a", "1"⟩, ⟨"b", "2"⟩]⟩ =
            Except.ok st' ∧
          st'.attempted = ["h.p.t.a 1 42\n", "h.p.t.b 2 42\n"] :=
  ⟨write_values_attempted, ⟨_, rfl, by decide⟩, ⟨_, rfl, by decide⟩⟩

/-- C8: a failed byte-stream write is never propagated to the caller:
`write_values` returns `Ok` for every batch under every pattern of write
failures, every value's delivery is attempted regardless of how many earlier
writes failed, and the attempted lines do not depend on the failure pattern
at all. -/
theorem write_failure_not_propagated :
    ∀ (outcome : String → Bool) (pre : Option String) (st : SinkState)
      (vl : ValueList),
      ∃ st', write_values outcome pre st vl = Except.ok st' ∧
        st'.attempted.length = st.attempted.length + vl.values.length ∧
        ∀ outcome2 : String → Bool, ∃ st2,
          write_values outcome2 pre st vl = Except.ok st2 ∧
          st2.attempted = st'.attempted := by
  intro outcome pre st vl
  obtain ⟨st', h1, h2⟩ := write_values_attempted outcome pre st vl
  refine ⟨st', h1, ?_, ?_⟩
  · rw [h2]
    by_cases h : vl.values.length = 1 <;> simp [h]
  · intro outcome2
    obtain ⟨st2, g1, g2⟩ := write_values_attempted outcome2 pre st vl
    exact ⟨st2, g1, by rw [g2, h2]⟩

end Collectd
